import Mathlib

/-!
Shallow embedding of the membership-scoped authorization, task-lifecycle,
audit-logging and heuristic-advisory core of the collabsphere backend
(`api/permissions.py`, `api/views.py`, `api/services.py`, `api/serializers.py`,
`api/models.py`).

Conventions:
* Database ids are `Nat`; a principal is `Option Nat` (`none` = unauthenticated).
* Timestamps and datetimes are `Int` seconds (one day = 86400), matching the
  second-granularity comparisons done with `timedelta` in the source.
* The delay-risk float arithmetic uses only multiples of 0.05 and the
  thresholds 0.34 / 0.67; we scale everything by 100 to `Int` hundredths,
  which is exact and order-isomorphic to the Python float computation here.
* Row stores are lists; the `unique_together` constraints of `models.py`
  appear as `Nodup` conditions on the key projections (`WellFormed`).
-/

namespace Collabsphere

/-- `TeamMembership.Role` from `api/models.py`. -/
inductive TRole
  | owner
  | admin
  | memberR
deriving DecidableEq, Repr

/-- `ProjectMembership.Role` from `api/models.py`. -/
inductive PRole
  | manager
  | contributor
  | viewer
deriving DecidableEq, Repr

/-- One `TeamMembership` row: (team, user, role). -/
structure TMRow where
  team : Nat
  user : Nat
  role : TRole
deriving DecidableEq, Repr

/-- One `ProjectMembership` row: (project, user, role). -/
structure PMRow where
  project : Nat
  user : Nat
  role : PRole
deriving DecidableEq, Repr

/-- One `Project` row (the fields the permission fallback reads). -/
structure ProjectRow where
  id : Nat
  teamId : Nat
deriving DecidableEq, Repr

/-- The slice of the relational store the embedded operations read/write. -/
structure Store where
  users : List Nat
  projects : List ProjectRow
  teamMemberships : List TMRow
  projectMemberships : List PMRow
deriving DecidableEq, Repr

/-- `MembershipInfo` dataclass from `api/permissions.py`. -/
structure MembershipInfo (ρ : Type) where
  is_member : Bool
  role : Option ρ
deriving DecidableEq, Repr

/-- `_team_membership` from `api/permissions.py`: single-row lookup;
an unauthenticated principal always yields `is_member = false`. -/
def team_membership (user : Option Nat) (teamId : Nat) (st : Store) :
    MembershipInfo TRole :=
  match user with
  | none => ⟨false, none⟩
  | some uid =>
    match st.teamMemberships.find? (fun m => m.team == teamId && m.user == uid) with
    | none => ⟨false, none⟩
    | some m => ⟨true, some m.role⟩

/-- `_project_membership` from `api/permissions.py`. -/
def project_membership (user : Option Nat) (projectId : Nat) (st : Store) :
    MembershipInfo PRole :=
  match user with
  | none => ⟨false, none⟩
  | some uid =>
    match st.projectMemberships.find? (fun m => m.project == projectId && m.user == uid) with
    | none => ⟨false, none⟩
    | some m => ⟨true, some m.role⟩

/-- `IsAuthenticatedAndProjectManager.has_permission` (`api/permissions.py`
lines 114-131), after the project id has been resolved to an integer:
project role manager, else fall back to owner/admin on the project's owning
team; a missing project denies. -/
def canManageProject (user : Option Nat) (projectId : Nat) (st : Store) : Bool :=
  let info := project_membership user projectId st
  if info.is_member ∧ info.role = some PRole.manager then true
  else
    match st.projects.find? (fun p => p.id == projectId) with
    | none => false
    | some proj =>
      let ti := team_membership user proj.teamId st
      ti.is_member && (decide (ti.role = some TRole.owner) || decide (ti.role = some TRole.admin))

/-- Database-level invariants from `api/models.py`: `unique_together`
on (team, user), (project, user), primary-key uniqueness of project ids, and
the foreign key from `ProjectMembership.project` to `Project`. -/
def WellFormed (st : Store) : Prop :=
  (st.projectMemberships.map (fun m => (m.project, m.user))).Nodup ∧
  (st.teamMemberships.map (fun m => (m.team, m.user))).Nodup ∧
  (st.projects.map (fun p => p.id)).Nodup ∧
  ∀ m ∈ st.projectMemberships, ∃ p ∈ st.projects, p.id = m.project

instance (st : Store) : Decidable (WellFormed st) := by
  unfold WellFormed; infer_instance

/-! ## Task lifecycle coordinator (`TaskViewSet` in `api/views.py`) -/

/-- A structured validation error (DRF `ValidationError` with a field-keyed
detail map), as raised by the serializers and view hooks. -/
inductive ApiError
  | validationErr (field : String) (message : String)
deriving DecidableEq, Repr

/-- The persisted columns of a `Task` row that the lifecycle logic touches. -/
structure TaskRow where
  id : Nat
  projectId : Nat
  createdBy : Nat
  title : String
  description : String
  status : String
  priority : Nat
  assignee : Option Nat
  dueDate : Option Int
  completedAt : Option Int
deriving DecidableEq, Repr

/-- An update payload after `TaskSerializer` validation: a field is `none`
when absent from the request. `assigneeId = some none` is an explicit null
(`allow_null`); `completed_at` is in `read_only_fields` so it cannot appear. -/
structure TaskUpdatePayload where
  title : Option String
  description : Option String
  status : Option String
  priority : Option Nat
  dueDate : Option (Option Int)
  assigneeId : Option (Option Nat)
deriving DecidableEq, Repr

/-- One persistence write performed by the coordinator: the main
`serializer.save(...)` or the follow-up
`task.save(update_fields=["completed_at"])` patch. -/
inductive TaskWrite
  | save (t : TaskRow)
  | completedAtPatch (ts : Int)
deriving DecidableEq, Repr

/-- Audit events emitted on the update path. -/
inductive EventLabel
  | task_updated
  | task_status_changed
deriving DecidableEq, Repr

/-- `ModelSerializer.update` semantics for `serializer.save(assignee=...)`:
every validated (non-absent) writable field is copied onto the instance,
and the `assignee` keyword argument is applied on top. -/
def applyPayload (old : TaskRow) (p : TaskUpdatePayload) (assignee : Option Nat) :
    TaskRow :=
  { old with
    title := p.title.getD old.title
    description := p.description.getD old.description
    status := p.status.getD old.status
    priority := p.priority.getD old.priority
    dueDate := match p.dueDate with | some d => d | none => old.dueDate
    assignee := assignee }

/-- The assignee validation of `TaskViewSet.perform_update`
(`api/views.py` lines 303-311): an explicit null passes; a user id must
exist and hold a `ProjectMembership` on the task's project. -/
def validateUpdateAssignee (st : Store) (projectId : Nat) (assigneeId : Option Nat) :
    Except ApiError (Option Nat) :=
  match assigneeId with
  | none => .ok none
  | some uid =>
    if uid ∈ st.users then
      if st.projectMemberships.any (fun m => m.project == projectId && m.user == uid) then
        .ok (some uid)
      else .error (.validationErr "assignee_id" "Assignee must be a member of the project.")
    else .error (.validationErr "assignee_id" "Assignee user not found.")

/-- `serializer.validated_data.pop("assignee_id", None)` in
`perform_update`: the value if the key is present (possibly an explicit
null), else `None`. After this the key is no longer in `validated_data`. -/
def popAssigneeId (p : TaskUpdatePayload) : Option Nat :=
  match p.assigneeId with | some v => v | none => none

/-- `TaskViewSet.perform_update` (`api/views.py` lines 296-335).
`serializer.validated_data.pop("assignee_id", ...)` removes the key, so the
two later `"assignee_id" in serializer.validated_data` tests are false: the
validated assignee is discarded and `serializer.save` always receives
`old.assignee` (`applyPayload old p old.assignee` plays the role of the
local variable `task`). If the resulting status differs from the prior one
and is `done` with `completed_at` unset, a second write patches
`completed_at` to the current time. Returns the persisted row, the writes,
and the audit events in order. -/
def perform_update (st : Store) (old : TaskRow) (p : TaskUpdatePayload) (now : Int) :
    Except ApiError (TaskRow × List TaskWrite × List EventLabel) :=
  match validateUpdateAssignee st old.projectId (popAssigneeId p) with
  | .error e => .error e
  | .ok _validated =>
    if old.status ≠ (applyPayload old p old.assignee).status then
      if (applyPayload old p old.assignee).status = "done" ∧
          (applyPayload old p old.assignee).completedAt = none then
        .ok ({ applyPayload old p old.assignee with completedAt := some now },
             [.save (applyPayload old p old.assignee), .completedAtPatch now],
             [.task_updated, .task_status_changed])
      else
        .ok (applyPayload old p old.assignee,
             [.save (applyPayload old p old.assignee)],
             [.task_updated, .task_status_changed])
    else
      .ok (applyPayload old p old.assignee,
           [.save (applyPayload old p old.assignee)],
           [.task_updated])

/-- The timestamps of the `completed_at` patch writes in a write list. -/
def completedAtWrites (ws : List TaskWrite) : List Int :=
  ws.filterMap (fun w => match w with | .completedAtPatch ts => some ts | _ => none)

/-- A creation payload after `TaskSerializer` validation (the fields the
assignee logic of `perform_create` reads). -/
structure TaskCreatePayload where
  title : String
  assigneeId : Option (Option Nat)
deriving DecidableEq, Repr

/-- Task creation: `TaskSerializer.validate_assignee_id`
(`api/serializers.py` lines 129-134: a non-null id must be an existing user)
followed by `TaskViewSet.perform_create` (`api/views.py` lines 279-294:
a resolved assignee must hold a `ProjectMembership` on the target project,
else a field-scoped validation error; nothing is persisted on error). -/
def create_task (st : Store) (projectPk : Nat) (p : TaskCreatePayload)
    (creator : Nat) (taskId : Nat) : Except ApiError TaskRow :=
  match p.assigneeId with
  | some (some uid) =>
    if uid ∈ st.users then
      if st.projectMemberships.any (fun m => m.project == projectPk && m.user == uid) then
        .ok { id := taskId, projectId := projectPk, createdBy := creator,
              title := p.title, description := "", status := "todo", priority := 2,
              assignee := some uid, dueDate := none, completedAt := none }
      else .error (.validationErr "assignee_id" "Assignee must be a member of the project.")
    else .error (.validationErr "assignee_id" "Assignee user not found.")
  | _ =>
    .ok { id := taskId, projectId := projectPk, createdBy := creator,
          title := p.title, description := "", status := "todo", priority := 2,
          assignee := none, dueDate := none, completedAt := none }

/-! ## Team membership creation (`TeamViewSet.add_member` in `api/views.py`) -/

/-- `TeamViewSet.add_member` (`api/views.py` lines 175-194):
`TeamMembershipCreateSerializer.validate_user_id` requires an existing user;
the `unique_together ("team", "user")` constraint of `models.py` makes the
insert raise `IntegrityError` on a duplicate pair, which the view maps to a
duplicate-membership validation error. On success the new row is appended. -/
def add_member (st : Store) (teamPk : Nat) (userId : Nat) (role : TRole) :
    Except ApiError (Store × TMRow) :=
  if userId ∈ st.users then
    if st.teamMemberships.any (fun m => m.team == teamPk && m.user == userId) then
      .error (.validationErr "detail" "User is already a member of this team.")
    else
      let row : TMRow := ⟨teamPk, userId, role⟩
      .ok ({ st with teamMemberships := st.teamMemberships ++ [row] }, row)
  else .error (.validationErr "user_id" "User not found.")

/-- The team-membership table after an `add_member` attempt (on error the
store is untouched). -/
def teamMembershipsAfter (st : Store) (teamPk userId : Nat) (role : TRole) :
    List TMRow :=
  match add_member st teamPk userId role with
  | .ok (st', _) => st'.teamMemberships
  | .error _ => st.teamMemberships

/-! ## Audit logger (`create_activity_log` in `api/services.py`) -/

/-- An `ActivityLog` row as built by `create_activity_log`. -/
structure ActivityLogRow where
  actor : Option Nat
  eventType : String
  message : String
  team : Option Nat
  project : Option Nat
  task : Option Nat
  metadata : List (String × String)
deriving DecidableEq, Repr

/-- The row `create_activity_log` constructs from its arguments: the actor is
anonymized unless authenticated (`is_authenticated`), and a missing metadata
map defaults to empty (`metadata or .. `). -/
def buildLogRow (actor : Option Nat) (eventType message : String)
    (team project task : Option Nat) (metadata : Option (List (String × String))) :
    ActivityLogRow :=
  { actor := actor, eventType := eventType, message := message,
    team := team, project := project, task := task,
    metadata := metadata.getD [] }

/-- `create_activity_log` (`api/services.py` lines 14-51): the store insert is
attempted inside `try`; any raised error is caught, logged internally and
swallowed, and an unsaved in-memory `ActivityLog` instance with the same
fields is returned instead. The store insert is abstracted as a fallible
function `storeCreate`. -/
def create_activity_log
    (storeCreate : ActivityLogRow → Except String ActivityLogRow)
    (actor : Option Nat) (eventType message : String)
    (team project task : Option Nat)
    (metadata : Option (List (String × String))) : ActivityLogRow :=
  match storeCreate (buildLogRow actor eventType message team project task metadata) with
  | .ok row => row
  | .error _ => buildLogRow actor eventType message team project task metadata

/-! ## Heuristic advisory service (`AIViewSet` in `api/views.py`) -/

/-- Seconds in one day, matching `timedelta(days=1)`. -/
def oneDay : Int := 86400

/-- Python's `str.lower()` on the ASCII strings used here (status values and
keyword text), written to reduce inside the kernel. -/
def strLower (s : String) : String := ⟨s.data.map Char.toLower⟩

/-- Substring test on character lists (Python's `k in text`). -/
def charsPrefix : List Char → List Char → Bool
  | [], _ => true
  | _ :: _, [] => false
  | a :: as, b :: bs => a == b && charsPrefix as bs

/-- Whether `kw` occurs as a contiguous substring of `text`. -/
def charsContains (text kw : List Char) : Bool :=
  match text with
  | [] => kw.isEmpty
  | _ :: rest => charsPrefix kw text || charsContains rest kw

/-- Python's `kw in text` on strings. -/
def strContains (text kw : String) : Bool :=
  charsContains text.toList kw.toList

/-- The urgent-keyword list of `priority_suggest` (`api/views.py` line 423). -/
def urgentKeywords : List String := ["urgent", "asap", "blocker", "critical", "p0"]

/-- The high-impact keyword list of `priority_suggest` (`api/views.py` line 424). -/
def highKeywords : List String := ["important", "deadline", "risk", "customer", "incident"]

/-- The stored task fields the AI endpoints read after loading the task. -/
structure AITaskRow where
  title : String
  description : String
  status : String
  priority : Nat
  assignee : Option Nat
  dueDate : Option Int
deriving DecidableEq, Repr

/-- `serializer.validated_data.get(k) or stored` for string fields: both a
missing key (`None`) and an empty string are falsy and fall back to the
stored value (`api/views.py` lines 413-416 and 479-480). -/
def resolveStrOverride (override : Option String) (stored : String) : String :=
  match override with
  | some s => if s = "" then stored else s
  | none => stored

/-- `validated_data.get("due_date") or task.due_date`: an absent key and an
explicit null both fall back to the stored due date (a datetime object is
always truthy). -/
def resolveDueOverride (override : Option (Option Int)) (stored : Option Int) :
    Option Int :=
  match override with
  | some (some d) => some d
  | _ => stored

/-- `validated_data.get("priority") or task.priority`: a missing key and the
falsy integer 0 both fall back to the stored priority (`api/views.py`
line 481). -/
def resolvePriorityOverride (override : Option Nat) (stored : Nat) : Nat :=
  match override with
  | some n => if n = 0 then stored else n
  | none => stored

/-- `validated_data.get("has_assignee")` with an explicit `is None` test
(`api/views.py` lines 482-484): only a missing key falls back to
`bool(task.assignee_id)`; an explicit `false` is kept. -/
def resolveHasAssignee (override : Option Bool) (storedAssignee : Option Nat) :
    Bool :=
  match override with
  | some b => b
  | none => storedAssignee.isSome

/-- The core of `AIViewSet.priority_suggest` (`api/views.py` lines 418-453)
on the resolved effective inputs; `statusVal` is already lowercased. Returns
the suggested priority (1-4) and the rationale parts in order. -/
def suggest_core (title description : String) (due : Option Int)
    (statusVal : String) (now : Int) : Nat × List String :=
  let text := strLower (title ++ "\n" ++ description)
  let s1 : Nat × List String :=
    if urgentKeywords.any (fun k => strContains text k) then
      (4, ["Detected urgency keywords."])
    else if highKeywords.any (fun k => strContains text k) then
      (3, ["Detected high-impact keywords."])
    else (2, [])
  let s2 : Nat × List String :=
    match due with
    | some d =>
      let delta := d - now
      if delta ≤ oneDay then (max s1.1 4, s1.2 ++ ["Due within 24 hours."])
      else if delta ≤ 3 * oneDay then (max s1.1 3, s1.2 ++ ["Due within 3 days."])
      else if delta ≤ 7 * oneDay then (max s1.1 2, s1.2 ++ ["Due within 7 days."])
      else s1
    | none => s1
  let s3 : Nat × List String :=
    if statusVal = "blocked" then (max s2.1 3, s2.2 ++ ["Task is blocked."]) else s2
  if statusVal = "done" then (1, s3.2 ++ ["Task is done; low priority."]) else s3

/-- A `priority-suggest` request payload after serializer validation. -/
structure PrioritySuggestPayload where
  title : Option String
  description : Option String
  status : Option String
  dueDate : Option (Option Int)
deriving DecidableEq, Repr

/-- `AIViewSet.priority_suggest` (`api/views.py` lines 407-463) after the
task lookup: resolve each override against the stored task (falsy values
fall back), lowercase the status, and run the heuristic core. -/
def priority_suggest (task : AITaskRow) (p : PrioritySuggestPayload) (now : Int) :
    Nat × List String :=
  suggest_core (resolveStrOverride p.title task.title)
    (resolveStrOverride p.description task.description)
    (resolveDueOverride p.dueDate task.dueDate)
    (strLower (resolveStrOverride p.status task.status)) now

/-- Risk levels returned by `delay_risk`. -/
inductive RiskLevel
  | low
  | medium
  | high
deriving DecidableEq, Repr

/-- The level thresholds of `delay_risk` (`api/views.py` lines 515-520),
on the 100-scaled score. -/
def levelOf (risk : Int) : RiskLevel :=
  if risk ≥ 67 then .high else if risk ≥ 34 then .medium else .low

/-- The due-date adjustment of `delay_risk` (`api/views.py` lines 502-511),
100-scaled: overdue → +35, else within 1/3/7 days → +25/+15/+5. -/
def dueAdjust (due : Option Int) (now : Int) : Int :=
  match due with
  | none => 0
  | some d =>
    let delta := d - now
    if delta < 0 then 35
    else if delta ≤ oneDay then 25
    else if delta ≤ 3 * oneDay then 15
    else if delta ≤ 7 * oneDay then 5
    else 0

/-- The core of `AIViewSet.delay_risk` (`api/views.py` lines 487-520) on the
resolved effective inputs, with the float score scaled by 100 to an exact
`Int` (all addends are multiples of 5 and the thresholds are 34 and 67, so
the scaling preserves every comparison the Python floats make). The `done`
reset to 0 is applied between the status additions and the priority/due-date
additions, exactly as in the source. -/
def risk_core (statusVal : String) (priority : Nat) (hasAssignee : Bool)
    (due : Option Int) (now : Int) : Int × RiskLevel :=
  let r0 : Int := 15
  let r1 := if !hasAssignee then r0 + 25 else r0
  let r2 := if statusVal = "todo" then r1 + 10 else r1
  let r3 := if statusVal = "blocked" then r2 + 35 else r2
  let r4 := if statusVal = "done" then 0 else r3
  let r5 := if priority = 4 ∨ priority = 3 then r4 + 10 else r4
  let r6 := r5 + dueAdjust due now
  let risk := max 0 (min 100 r6)
  (risk, levelOf risk)

/-- A `delay-risk` request payload after serializer validation. -/
structure DelayRiskPayload where
  status : Option String
  priority : Option Nat
  hasAssignee : Option Bool
  dueDate : Option (Option Int)
deriving DecidableEq, Repr

/-- `AIViewSet.delay_risk` (`api/views.py` lines 473-535) after the task
lookup: resolve the overrides (only `has_assignee` honours an explicit
false) and run the scoring core. -/
def delay_risk (task : AITaskRow) (p : DelayRiskPayload) (now : Int) :
    Int × RiskLevel :=
  risk_core (strLower (resolveStrOverride p.status task.status))
    (resolvePriorityOverride p.priority task.priority)
    (resolveHasAssignee p.hasAssignee task.assignee)
    (resolveDueOverride p.dueDate task.dueDate) now

/-! ## Theorems -/

lemma project_membership_eq_some (st : Store)
    (hnd : (st.projectMemberships.map (fun m => (m.project, m.user))).Nodup)
    (uid pid : Nat) (m : PMRow) (hm : m ∈ st.projectMemberships)
    (hp : m.project = pid) (hu : m.user = uid) :
    project_membership (some uid) pid st = ⟨true, some m.role⟩ := by
  unfold project_membership
  have hex : ∃ x ∈ st.projectMemberships, (fun m => m.project == pid && m.user == uid) x := by
    exact ⟨m, hm, by simp [hp, hu]⟩
  obtain ⟨m', hm'⟩ := Option.isSome_iff_exists.mp (List.find?_isSome.mpr hex)
  have hpred := List.find?_some hm'
  have hmem := List.mem_of_find?_eq_some hm'
  simp only [Bool.and_eq_true, beq_iff_eq] at hpred
  have : m' = m := by
    apply List.inj_on_of_nodup_map hnd hmem hm
    simp [hpred.1, hpred.2, hp, hu]
  simp only [hm', this]

lemma project_membership_eq_none (st : Store) (uid pid : Nat)
    (h : ∀ m ∈ st.projectMemberships, ¬(m.project = pid ∧ m.user = uid)) :
    project_membership (some uid) pid st = ⟨false, none⟩ := by
  unfold project_membership
  have : st.projectMemberships.find? (fun m => m.project == pid && m.user == uid) = none := by
    rw [List.find?_eq_none]
    intro m hm
    simp only [Bool.and_eq_true, beq_iff_eq]
    exact fun hc => h m hm ⟨hc.1, hc.2⟩
  simp only [this]

lemma team_membership_eq_some (st : Store)
    (hnd : (st.teamMemberships.map (fun m => (m.team, m.user))).Nodup)
    (uid tid : Nat) (m : TMRow) (hm : m ∈ st.teamMemberships)
    (hp : m.team = tid) (hu : m.user = uid) :
    team_membership (some uid) tid st = ⟨true, some m.role⟩ := by
  unfold team_membership
  have hex : ∃ x ∈ st.teamMemberships, (fun m => m.team == tid && m.user == uid) x := by
    exact ⟨m, hm, by simp [hp, hu]⟩
  obtain ⟨m', hm'⟩ := Option.isSome_iff_exists.mp (List.find?_isSome.mpr hex)
  have hpred := List.find?_some hm'
  have hmem := List.mem_of_find?_eq_some hm'
  simp only [Bool.and_eq_true, beq_iff_eq] at hpred
  have : m' = m := by
    apply List.inj_on_of_nodup_map hnd hmem hm
    simp [hpred.1, hpred.2, hp, hu]
  simp only [hm', this]


/-- Claim C1: for every principal and project id, `canManageProject` returns
true iff the principal holds a `ProjectMembership` on the project with role
manager, or a `TeamMembership` on the project's owning team with role owner
or admin; in particular, when no project with that id exists the check
returns false (so a contributor/viewer without an elevated team role, and
any principal on a missing project, are denied). -/
theorem canManageProject_iff (st : Store) (hwf : WellFormed st)
    (u : Option Nat) (pid : Nat) :
    (canManageProject u pid st = true ↔
      (∃ m ∈ st.projectMemberships,
        m.project = pid ∧ some m.user = u ∧ m.role = PRole.manager) ∨
      (∃ pr ∈ st.projects, pr.id = pid ∧
        ∃ tm ∈ st.teamMemberships, tm.team = pr.teamId ∧ some tm.user = u ∧
          (tm.role = TRole.owner ∨ tm.role = TRole.admin))) ∧
    ((∀ pr ∈ st.projects, pr.id ≠ pid) → canManageProject u pid st = false) := by
  obtain ⟨hndP, hndT, hndI, hfk⟩ := hwf
  match u with
  | none =>
    constructor
    · constructor
      · intro htrue
        exfalso
        unfold canManageProject project_membership team_membership at htrue
        simp only at htrue
        split at htrue
        · simp_all
        · split at htrue <;> simp_all
      · rintro (⟨m, hm, hp, hu, hr⟩ | ⟨pr, hpr, hid, tm, htm, ht, hu, hr⟩) <;> simp_all
    · intro h
      unfold canManageProject project_membership team_membership
      simp only
      split
      · simp_all
      · split <;> simp_all
  | some uid =>
    constructor
    · constructor
      · intro htrue
        unfold canManageProject at htrue
        by_cases hmgr : (project_membership (some uid) pid st).is_member = true ∧
            (project_membership (some uid) pid st).role = some PRole.manager
        · -- manager branch
          left
          unfold project_membership at hmgr
          rcases hfind : st.projectMemberships.find? (fun m => m.project == pid && m.user == uid) with _ | m
          · simp only [hfind] at hmgr; simp_all
          · have hpred := List.find?_some hfind
            have hmem := List.mem_of_find?_eq_some hfind
            simp only [Bool.and_eq_true, beq_iff_eq] at hpred
            simp only [hfind] at hmgr
            exact ⟨m, hmem, hpred.1, by simp [hpred.2], by simpa using hmgr.2⟩
        · -- fallback branch
          right
          rw [if_neg (by simpa using hmgr)] at htrue
          rcases hfindp : st.projects.find? (fun p => p.id == pid) with _ | pr
          · rw [hfindp] at htrue; simp at htrue
          · rw [hfindp] at htrue
            have hpredp := List.find?_some hfindp
            have hmemp := List.mem_of_find?_eq_some hfindp
            simp only [beq_iff_eq] at hpredp
            simp only [Bool.and_eq_true, Bool.or_eq_true, decide_eq_true_eq] at htrue
            obtain ⟨hism, hrole⟩ := htrue
            unfold team_membership at hism hrole
            rcases hfindt : st.teamMemberships.find? (fun m => m.team == pr.teamId && m.user == uid) with _ | tm
            · simp only [hfindt] at hism; simp at hism
            · simp only [hfindt] at hrole
              have hpredt := List.find?_some hfindt
              have hmemt := List.mem_of_find?_eq_some hfindt
              simp only [Bool.and_eq_true, beq_iff_eq] at hpredt
              refine ⟨pr, hmemp, hpredp, tm, hmemt, hpredt.1, by simp [hpredt.2], ?_⟩
              rcases hrole with h | h <;> [left; right] <;> simpa using h
      · rintro (⟨m, hm, hp, hu, hr⟩ | ⟨pr, hpr, hid, tm, htm, ht, hu, hr⟩)
        · have hu' : m.user = uid := by simpa using hu
          have := project_membership_eq_some st hndP uid pid m hm hp hu'
          unfold canManageProject
          rw [this]
          simp [hr]
        · have hu' : tm.user = uid := by simpa using hu
          unfold canManageProject
          by_cases hmgr : (project_membership (some uid) pid st).is_member = true ∧
              (project_membership (some uid) pid st).role = some PRole.manager
          · rw [if_pos hmgr]
          · rw [if_neg hmgr]
            have hexp : ∃ x ∈ st.projects, (fun p => p.id == pid) x := ⟨pr, hpr, by simp [hid]⟩
            obtain ⟨pr', hfp⟩ := Option.isSome_iff_exists.mp (List.find?_isSome.mpr hexp)
            have hpredp := List.find?_some hfp
            have hmemp := List.mem_of_find?_eq_some hfp
            simp only [beq_iff_eq] at hpredp
            have hpr' : pr' = pr := by
              apply List.inj_on_of_nodup_map hndI hmemp hpr
              simp [hpredp, hid]
            rw [hfp, hpr']
            have := team_membership_eq_some st hndT uid pr.teamId tm htm ht hu'
            simp only [this]
            rcases hr with h | h <;> simp [h]
    · intro hnop
      unfold canManageProject
      have hnomem : ∀ m ∈ st.projectMemberships, ¬(m.project = pid ∧ m.user = uid) := by
        intro m hm ⟨hp, _⟩
        obtain ⟨p, hpmem, hpid⟩ := hfk m hm
        exact hnop p hpmem (hpid.trans hp)
      rw [project_membership_eq_none st uid pid hnomem]
      have hfnone : st.projects.find? (fun p => p.id == pid) = none := by
        rw [List.find?_eq_none]
        intro p hp
        simpa using hnop p hp
      simp [hfnone]

/-- Concrete instance of `canManageProject_iff`: on a small well-formed
store, a principal holding a manager `ProjectMembership` passes the check. -/
theorem canManageProject_iff_witness :
    canManageProject (some 1) 10
      ⟨[1, 2], [⟨10, 20⟩], [⟨20, 2, TRole.admin⟩], [⟨10, 1, PRole.manager⟩]⟩ = true :=
  (canManageProject_iff ⟨[1, 2], [⟨10, 20⟩], [⟨20, 2, TRole.admin⟩], [⟨10, 1, PRole.manager⟩]⟩
    (by decide) (some 1) 10).1.mpr
    (Or.inl ⟨⟨10, 1, PRole.manager⟩, by decide, rfl, rfl, rfl⟩)

lemma applyPayload_projectId (old : TaskRow) (p : TaskUpdatePayload) (a : Option Nat) :
    (applyPayload old p a).projectId = old.projectId := rfl

lemma applyPayload_completedAt (old : TaskRow) (p : TaskUpdatePayload) (a : Option Nat) :
    (applyPayload old p a).completedAt = old.completedAt := rfl

lemma applyPayload_status (old : TaskRow) (p : TaskUpdatePayload) (a : Option Nat) :
    (applyPayload old p a).status = p.status.getD old.status := rfl

/-- Claim C2: an update through the lifecycle coordinator that moves a task
whose status is not `done` and whose `completed_at` is null to resulting
status `done` performs exactly one additional persistence write, setting
`completed_at` to a timestamp at or after the update's start time; running
the same update again on the now-done task performs no further
`completed_at` write. -/
theorem update_to_done_sets_completed_at
    (st : Store) (old : TaskRow) (p : TaskUpdatePayload) (start now : Int)
    (t : TaskRow) (ws : List TaskWrite) (evs : List EventLabel)
    (hstart : start ≤ now)
    (hnotdone : old.status ≠ "done") (hnull : old.completedAt = none)
    (hres : perform_update st old p now = .ok (t, ws, evs))
    (hdone : t.status = "done") :
    (completedAtWrites ws = [now] ∧ t.completedAt = some now ∧ start ≤ now) ∧
    (∀ now2 t2 ws2 evs2, perform_update st t p now2 = .ok (t2, ws2, evs2) →
      completedAtWrites ws2 = []) := by
  unfold perform_update at hres
  rcases hval : validateUpdateAssignee st old.projectId (popAssigneeId p) with e | v
  · rw [hval] at hres; exact absurd hres (by simp)
  · rw [hval] at hres
    simp only at hres
    by_cases hch : old.status ≠ (applyPayload old p old.assignee).status
    · rw [if_pos hch] at hres
      by_cases hdc : (applyPayload old p old.assignee).status = "done" ∧
          (applyPayload old p old.assignee).completedAt = none
      · rw [if_pos hdc] at hres
        obtain ⟨ht, hws, hevs⟩ : { applyPayload old p old.assignee with completedAt := some now } = t ∧
            [TaskWrite.save (applyPayload old p old.assignee), TaskWrite.completedAtPatch now] = ws ∧
            [EventLabel.task_updated, EventLabel.task_status_changed] = evs := by
          simpa using hres
        have hps : p.status = some "done" := by
          rcases hps0 : p.status with _ | s
          · exfalso
            apply hnotdone
            have h1 := hdc.1
            rw [applyPayload_status, hps0] at h1
            simpa using h1
          · have hsd : s = "done" := by
              have h1 := hdc.1
              rw [applyPayload_status, hps0] at h1
              simpa using h1
            simp [hps0, hsd]
        constructor
        · refine ⟨?_, ?_, hstart⟩
          · rw [← hws]; simp [completedAtWrites]
          · rw [← ht]
        · intro now2 t2 ws2 evs2 hres2
          unfold perform_update at hres2
          have hpid : t.projectId = old.projectId := by rw [← ht]; rfl
          rw [hpid, hval] at hres2
          simp only at hres2
          have hst2 : (applyPayload t p t.assignee).status = t.status := by
            rw [applyPayload_status, hps, hdone]; rfl
          rw [if_neg (by simp [hst2])] at hres2
          obtain ⟨-, hws2, -⟩ : applyPayload t p t.assignee = t2 ∧
              [TaskWrite.save (applyPayload t p t.assignee)] = ws2 ∧
              [EventLabel.task_updated] = evs2 := by simpa using hres2
          rw [← hws2]; simp [completedAtWrites]
      · exfalso
        rw [if_neg hdc] at hres
        obtain ⟨ht, -, -⟩ : applyPayload old p old.assignee = t ∧
            [TaskWrite.save (applyPayload old p old.assignee)] = ws ∧
            [EventLabel.task_updated, EventLabel.task_status_changed] = evs := by
          simpa using hres
        exact hdc ⟨by rw [ht]; exact hdone, by rw [applyPayload_completedAt]; exact hnull⟩
    · exfalso
      rw [if_neg hch] at hres
      push_neg at hch
      obtain ⟨ht, -, -⟩ : applyPayload old p old.assignee = t ∧
          [TaskWrite.save (applyPayload old p old.assignee)] = ws ∧
          [EventLabel.task_updated] = evs := by simpa using hres
      exact hnotdone (hch.trans (by rw [ht]; exact hdone))

/-- Concrete instance of `update_to_done_sets_completed_at`: a `todo` task
updated to `done` at time 100 gets exactly one `completed_at` patch write. -/
theorem update_to_done_sets_completed_at_witness :
    completedAtWrites [TaskWrite.save ⟨5, 1, 2, "t", "", "done", 2, none, none, none⟩,
        TaskWrite.completedAtPatch 100] = [100] ∧
    (⟨5, 1, 2, "t", "", "done", 2, none, none, some 100⟩ : TaskRow).completedAt = some 100 ∧
    (50 : Int) ≤ 100 :=
  (update_to_done_sets_completed_at ⟨[], [], [], []⟩
    ⟨5, 1, 2, "t", "", "todo", 2, none, none, none⟩
    ⟨none, none, some "done", none, none, none⟩ 50 100
    ⟨5, 1, 2, "t", "", "done", 2, none, none, some 100⟩
    [TaskWrite.save ⟨5, 1, 2, "t", "", "done", 2, none, none, none⟩,
     TaskWrite.completedAtPatch 100]
    [EventLabel.task_updated, EventLabel.task_status_changed]
    (by decide) (by decide) rfl rfl rfl).1

/-- Claim C3: an update that moves a task whose `completed_at` is set away
from status `done` leaves `completed_at` unchanged and performs no
`completed_at` write. -/
theorem away_from_done_keeps_completed_at
    (st : Store) (old : TaskRow) (p : TaskUpdatePayload) (now c : Int)
    (t : TaskRow) (ws : List TaskWrite) (evs : List EventLabel)
    (hold : old.status = "done") (hc : old.completedAt = some c)
    (hres : perform_update st old p now = .ok (t, ws, evs))
    (hne : t.status ≠ "done") :
    t.completedAt = some c ∧ completedAtWrites ws = [] := by
  unfold perform_update at hres
  rcases hval : validateUpdateAssignee st old.projectId (popAssigneeId p) with e | v
  · rw [hval] at hres; exact absurd hres (by simp)
  · rw [hval] at hres
    simp only at hres
    by_cases hch : old.status ≠ (applyPayload old p old.assignee).status
    · rw [if_pos hch] at hres
      by_cases hdc : (applyPayload old p old.assignee).status = "done" ∧
          (applyPayload old p old.assignee).completedAt = none
      · exfalso
        rw [if_pos hdc] at hres
        obtain ⟨ht, -, -⟩ : { applyPayload old p old.assignee with completedAt := some now } = t ∧
            [TaskWrite.save (applyPayload old p old.assignee), TaskWrite.completedAtPatch now] = ws ∧
            [EventLabel.task_updated, EventLabel.task_status_changed] = evs := by
          simpa using hres
        exact hne (by rw [← ht]; exact hdc.1)
      · rw [if_neg hdc] at hres
        obtain ⟨ht, hws, -⟩ : applyPayload old p old.assignee = t ∧
            [TaskWrite.save (applyPayload old p old.assignee)] = ws ∧
            [EventLabel.task_updated, EventLabel.task_status_changed] = evs := by
          simpa using hres
        refine ⟨?_, by rw [← hws]; simp [completedAtWrites]⟩
        rw [← ht, applyPayload_completedAt]; exact hc
    · rw [if_neg hch] at hres
      obtain ⟨ht, hws, -⟩ : applyPayload old p old.assignee = t ∧
          [TaskWrite.save (applyPayload old p old.assignee)] = ws ∧
          [EventLabel.task_updated] = evs := by simpa using hres
      refine ⟨?_, by rw [← hws]; simp [completedAtWrites]⟩
      rw [← ht, applyPayload_completedAt]; exact hc

/-- Concrete instance of `away_from_done_keeps_completed_at`: a `done`
task with `completed_at = 77` moved to `todo` keeps the timestamp. -/
theorem away_from_done_keeps_completed_at_witness :
    (⟨5, 1, 2, "t", "", "todo", 2, none, none, some 77⟩ : TaskRow).completedAt = some 77 ∧
    completedAtWrites [TaskWrite.save ⟨5, 1, 2, "t", "", "todo", 2, none, none, some 77⟩] = [] :=
  away_from_done_keeps_completed_at ⟨[], [], [], []⟩
    ⟨5, 1, 2, "t", "", "done", 2, none, none, some 77⟩
    ⟨none, none, some "todo", none, none, none⟩ 100 77
    ⟨5, 1, 2, "t", "", "todo", 2, none, none, some 77⟩
    [TaskWrite.save ⟨5, 1, 2, "t", "", "todo", 2, none, none, some 77⟩]
    [EventLabel.task_updated, EventLabel.task_status_changed]
    rfl rfl rfl (by decide)

/-- Claim C4: evaluation of `perform_update` at the failing inputs. User 7
exists and holds a `ProjectMembership` on project 1, and the payload sets
`assignee_id = 7` on a task with no assignee — yet the persisted row keeps
`assignee = none`, because the popped `assignee_id` key makes the
`"assignee_id" in serializer.validated_data` test on the save line false.
Likewise an explicit-null payload leaves a previous assignee in place. -/
theorem update_assignee_never_persisted_eval :
    perform_update ⟨[7], [⟨1, 20⟩], [], [⟨1, 7, PRole.contributor⟩]⟩
        ⟨5, 1, 2, "t", "", "todo", 2, none, none, none⟩
        ⟨none, none, none, none, none, some (some 7)⟩ 100 =
      .ok (⟨5, 1, 2, "t", "", "todo", 2, none, none, none⟩,
           [.save ⟨5, 1, 2, "t", "", "todo", 2, none, none, none⟩],
           [.task_updated]) ∧
    perform_update ⟨[7], [⟨1, 20⟩], [], [⟨1, 7, PRole.contributor⟩]⟩
        ⟨5, 1, 2, "t", "", "todo", 2, some 3, none, none⟩
        ⟨none, none, none, none, none, some none⟩ 100 =
      .ok (⟨5, 1, 2, "t", "", "todo", 2, some 3, none, none⟩,
           [.save ⟨5, 1, 2, "t", "", "todo", 2, some 3, none, none⟩],
           [.task_updated]) := ⟨rfl, rfl⟩

/-- Claim C5: a task-creation request whose assignee id does not resolve to
an existing user, or resolves to a user with no `ProjectMembership` on the
target project, fails with a validation error naming `assignee_id` (and no
row is produced); a successful creation never drops the requested assignee,
and every error the operation returns is one of those two field-scoped
validation errors. -/
theorem create_task_assignee_validation
    (st : Store) (projectPk : Nat) (p : TaskCreatePayload) (creator taskId uid : Nat)
    (hp : p.assigneeId = some (some uid)) :
    (uid ∉ st.users →
      create_task st projectPk p creator taskId =
        .error (.validationErr "assignee_id" "Assignee user not found.")) ∧
    ((uid ∈ st.users ∧ ∀ m ∈ st.projectMemberships, ¬(m.project = projectPk ∧ m.user = uid)) →
      create_task st projectPk p creator taskId =
        .error (.validationErr "assignee_id" "Assignee must be a member of the project.")) ∧
    (∀ t, create_task st projectPk p creator taskId = .ok t → t.assignee = some uid) ∧
    (∀ e, create_task st projectPk p creator taskId = .error e →
      e = .validationErr "assignee_id" "Assignee user not found." ∨
      e = .validationErr "assignee_id" "Assignee must be a member of the project.") := by
  obtain ⟨ptitle, pa⟩ := p
  have hp' : pa = some (some uid) := hp
  subst hp'
  simp only [create_task]
  by_cases hu : uid ∈ st.users
  · rw [if_pos hu]
    by_cases hmem : st.projectMemberships.any (fun m => m.project == projectPk && m.user == uid) = true
    · rw [if_pos hmem]
      refine ⟨fun h => absurd hu h, ?_, ?_, ?_⟩
      · rintro ⟨-, hall⟩
        exfalso
        rw [List.any_eq_true] at hmem
        obtain ⟨m, hm, hpm⟩ := hmem
        simp only [Bool.and_eq_true, beq_iff_eq] at hpm
        exact hall m hm ⟨hpm.1, hpm.2⟩
      · intro t htt
        simp only [Except.ok.injEq] at htt
        rw [← htt]
      · intro e he
        exact absurd he (by simp)
    · rw [if_neg hmem]
      refine ⟨fun h => absurd hu h, fun _ => rfl, ?_, ?_⟩
      · intro t htt
        exact absurd htt (by simp)
      · intro e he
        simp only [Except.error.injEq] at he
        exact Or.inr he.symm
  · rw [if_neg hu]
    refine ⟨fun _ => rfl, fun h => absurd h.1 hu, ?_, ?_⟩
    · intro t htt
      exact absurd htt (by simp)
    · intro e he
      simp only [Except.error.injEq] at he
      exact Or.inl he.symm


/-- Concrete instance of `create_task_assignee_validation`: an assignee id
that matches no user fails with the not-found validation error. -/
theorem create_task_assignee_validation_witness :
    create_task ⟨[], [], [], []⟩ 1 ⟨"t", some (some 7)⟩ 2 5 =
      .error (.validationErr "assignee_id" "Assignee user not found.") :=
  (create_task_assignee_validation ⟨[], [], [], []⟩ 1 ⟨"t", some (some 7)⟩ 2 5 7 rfl).1
    (by decide)

/-- Claim C6: every error raised by the underlying store write inside
`create_activity_log` is caught and suppressed, and the caller receives the
best-effort in-memory row built from the inputs, so the triggering
operation never fails because of the audit write (the return type carries
no error at all). -/
theorem audit_log_error_suppressed
    (storeCreate : ActivityLogRow → Except String ActivityLogRow)
    (actor : Option Nat) (eventType message : String)
    (team project task : Option Nat) (metadata : Option (List (String × String)))
    (e : String)
    (herr : storeCreate (buildLogRow actor eventType message team project task metadata) =
      .error e) :
    create_activity_log storeCreate actor eventType message team project task metadata =
      buildLogRow actor eventType message team project task metadata := by
  unfold create_activity_log
  rw [herr]

theorem audit_log_error_suppressed_witness :
    create_activity_log (fun _ => .error "db down") (some 1) "task_updated" "m"
        none none none none =
      buildLogRow (some 1) "task_updated" "m" none none none none :=
  audit_log_error_suppressed (fun _ => .error "db down") (some 1) "task_updated" "m"
    none none none none "db down" rfl

/-- Claim C9: creating a second `TeamMembership` for a (team, user) pair
that already has one fails with the duplicate-membership validation error,
and the membership table — including the original row — is unchanged. -/
theorem duplicate_team_member_rejected
    (st : Store) (teamPk userId : Nat) (role : TRole) (m : TMRow)
    (hu : userId ∈ st.users) (hm : m ∈ st.teamMemberships)
    (hteam : m.team = teamPk) (huser : m.user = userId) :
    add_member st teamPk userId role =
      .error (.validationErr "detail" "User is already a member of this team.") ∧
    teamMembershipsAfter st teamPk userId role = st.teamMemberships := by
  have hdup : st.teamMemberships.any (fun x => x.team == teamPk && x.user == userId) = true := by
    rw [List.any_eq_true]
    exact ⟨m, hm, by simp [hteam, huser]⟩
  have h1 : add_member st teamPk userId role =
      .error (.validationErr "detail" "User is already a member of this team.") := by
    unfold add_member
    rw [if_pos hu, if_pos hdup]
  refine ⟨h1, ?_⟩
  unfold teamMembershipsAfter
  rw [h1]

theorem duplicate_team_member_rejected_witness :
    add_member ⟨[7], [], [⟨2, 7, TRole.memberR⟩], []⟩ 2 7 TRole.memberR =
      .error (.validationErr "detail" "User is already a member of this team.") :=
  (duplicate_team_member_rejected ⟨[7], [], [⟨2, 7, TRole.memberR⟩], []⟩ 2 7 TRole.memberR
    ⟨2, 7, TRole.memberR⟩ (by decide) (by decide) rfl rfl).1

lemma suggest_core_done (title description : String) (due : Option Int) (now : Int) :
    (suggest_core title description due "done" now).1 = 1 := by
  unfold suggest_core
  simp

/-- Claim C8: whenever the effective (override-resolved, lowercased) status
is `done`, `priority_suggest` returns priority low (1), regardless of the
keyword, due-date and blocked signals: the done rule is applied last and
overrides them. -/
theorem priority_suggest_done_forces_low
    (task : AITaskRow) (p : PrioritySuggestPayload) (now : Int)
    (hdone : strLower (resolveStrOverride p.status task.status) = "done") :
    (priority_suggest task p now).1 = 1 := by
  unfold priority_suggest
  rw [hdone]
  exact suggest_core_done _ _ _ now

theorem priority_suggest_done_forces_low_witness :
    (priority_suggest ⟨"urgent blocker", "asap critical", "done", 2, none, some 0⟩
      ⟨none, none, none, none⟩ 0).1 = 1 :=
  priority_suggest_done_forces_low ⟨"urgent blocker", "asap critical", "done", 2, none, some 0⟩
    ⟨none, none, none, none⟩ 0 rfl

theorem delay_risk_done_not_always_zero :
    delay_risk ⟨"t", "d", "done", 3, some 9, some 0⟩ ⟨none, none, none, none⟩ 1 ≠
      (0, RiskLevel.low) := by decide

/-- Claim C7 (amended): when the effective status is `done`, the reset
discards the baseline, missing-assignee and todo/blocked contributions, but
the priority bonus and the due-date adjustment are added after the reset,
so the returned score is the clamped sum of exactly those two terms (and
the level is derived from it); the result is independent of assignee
presence. Scores are in exact hundredths of the Python floats. -/
theorem delay_risk_done_resets_then_adds
    (priority : Nat) (hasAssignee : Bool) (due : Option Int) (now : Int) :
    risk_core "done" priority hasAssignee due now =
      (max 0 (min 100 ((if priority = 4 ∨ priority = 3 then (10 : Int) else 0) +
          dueAdjust due now)),
       levelOf (max 0 (min 100 ((if priority = 4 ∨ priority = 3 then (10 : Int) else 0) +
          dueAdjust due now)))) := by
  unfold risk_core
  simp

/-- Claim C10: in the override resolution both AI endpoints perform, a
falsy supplied value (empty string, explicit null, priority 0) is treated
as absent and falls back to the stored task field, so status, title,
description, due date and priority cannot be overridden to an empty value;
only `has_assignee` distinguishes an explicit false from an omitted value.
-/
theorem override_falsy_falls_back
    (stored : String) (storedDue : Option Int) (storedPriority : Nat)
    (storedAssignee : Option Nat) :
    resolveStrOverride (some "") stored = stored ∧
    resolveStrOverride none stored = stored ∧
    resolveDueOverride (some none) storedDue = storedDue ∧
    resolveDueOverride none storedDue = storedDue ∧
    resolvePriorityOverride (some 0) storedPriority = storedPriority ∧
    resolvePriorityOverride none storedPriority = storedPriority ∧
    resolveHasAssignee (some false) storedAssignee = false ∧
    resolveHasAssignee none storedAssignee = storedAssignee.isSome ∧
    resolveHasAssignee (some false) (some 9) ≠ resolveHasAssignee none (some 9) :=
  ⟨rfl, rfl, rfl, rfl, rfl, rfl, rfl, rfl, by decide⟩

end Collabsphere
